import Mathlib

/-!
Shallow embedding of the expense-tracker bot's ledger core
(`db_manager.py`, `expense_handler.py`, `bot_commands.py`).

Monetary amounts (Python floats) are modelled as rationals; timestamps as
naturals; SQL tables as lists of rows; the sqlite connection discipline
(per-call connection, explicit `commit`, rollback-on-close) is made explicit
by returning the committed database state from each operation.
-/

deriving instance DecidableEq for Except

namespace ExpenseBot

/-- Status of a debt row (`debts.status`): `'unpaid'` or `'paid'`. -/
inductive DebtStatus where
  | unpaid
  | paid
deriving DecidableEq, Repr

/-- Status of a transaction row (`transactions.status`). -/
inductive TxStatus where
  | pending
  | confirmed
  | rejected
deriving DecidableEq, Repr

/-- A row of the `users` table. `username`, `first_name`, `last_name` are
nullable TEXT columns. -/
structure UserRow where
  user_id : Nat
  username : Option String
  first_name : Option String
  last_name : Option String
deriving DecidableEq, Repr

/-- A row of the `expenses` table. `participants` is stored as a JSON list
of user ids; `date` is the insertion timestamp. -/
structure ExpenseRow where
  id : Nat
  group_id : Int
  amount : ℚ
  description : String
  date : Nat
  admin_id : Nat
  file_id : Option String
  participants : List Nat
deriving DecidableEq, Repr

/-- A row of the `debts` table; composite primary key `(user_id, expense_id)`.
Note the table has NO `id` column. -/
structure DebtRow where
  user_id : Nat
  expense_id : Nat
  amount : ℚ
  status : DebtStatus
deriving DecidableEq, Repr

/-- A row of the `transactions` table. -/
structure TxRow where
  id : Nat
  group_id : Int
  sender_id : Nat
  receiver_id : Nat
  amount : ℚ
  timestamp : Nat
  status : TxStatus
deriving DecidableEq, Repr

/-- The persistent database state, plus the autoincrement counters and the
current clock (`datetime.now()`). -/
structure DB where
  users : List UserRow
  group_members : List (Int × Nat)
  expenses : List ExpenseRow
  debts : List DebtRow
  transactions : List TxRow
  next_expense_id : Nat
  next_tx_id : Nat
  now : Nat
deriving DecidableEq, Repr

/-- A Python value, as far as the embedded code needs one (used to model
dict / `sqlite3.Row` key lookups). -/
inductive PyVal where
  | int (n : Int)
  | rat (q : ℚ)
  | str (s : String)
  | nil
deriving DecidableEq, Repr

/-- Embeds `'bot' in s.lower()`: case-insensitive substring test used by the
bot-identity heuristic (`str.lower` modelled character-wise, which agrees
with Python on the ASCII pattern being searched). -/
def containsBotSub (s : String) : Bool :=
  decide (List.IsInfix "bot".toList (s.toList.map Char.toLower))

/-- The bot heuristic applied to a user row: username or first name
contains the substring `bot` (case-insensitive). -/
def isBotUser (u : UserRow) : Bool :=
  (match u.username with
   | some s => containsBotSub s
   | none => false)
  ||
  (match u.first_name with
   | some s => containsBotSub s
   | none => false)

/-- Embeds `SELECT * FROM users WHERE user_id = ?` (first matching row). -/
def findUser (db : DB) (uid : Nat) : Option UserRow :=
  db.users.find? (fun u => u.user_id = uid)

/-- Embeds `save_user`: insert the user if absent, otherwise update all three of
`username`, `first_name`, `last_name` (db_manager.py lines 130-160). -/
def save_user (db : DB) (uid : Nat) (username first_name last_name : Option String) :
    DB :=
  if (findUser db uid).isSome then
    { db with users := db.users.map (fun u =>
        if u.user_id = uid then
          { u with username := username, first_name := first_name,
                   last_name := last_name }
        else u) }
  else
    { db with users := db.users ++ [⟨uid, username, first_name, last_name⟩] }

/-- Embeds `get_group_members`: users joined through `group_members`, optionally
excluding bot-named users (db_manager.py lines 238-274). -/
def get_group_members (db : DB) (gid : Int) (exclude_bots : Bool) : List UserRow :=
  let members := db.users.filter (fun (u : UserRow) => db.group_members.contains (gid, u.user_id))
  if exclude_bots then members.filter (fun (m : UserRow) => !(isBotUser m)) else members

/-- One `INSERT INTO debts` per participant; the composite primary key
`(user_id, expense_id)` makes a duplicate insert raise `IntegrityError`,
modelled as `none` (whole transaction rolled back by the caller). -/
def insertDebtsAux (eid : Nat) (amt : ℚ) : List Nat → List DebtRow → Option (List DebtRow)
  | [], acc => some acc
  | u :: rest, acc =>
    if acc.any (fun d => d.user_id = u && d.expense_id = eid) then none
    else insertDebtsAux eid amt rest (acc ++ [⟨u, eid, amt, DebtStatus.unpaid⟩])

/-- The per-id test `add_expense` applies to an explicitly passed
participant: the id must belong to an existing user whose name does not
trigger the bot heuristic. -/
def participantKeep (db : DB) (uid : Nat) : Bool :=
  match findUser db uid with
  | some u => !(isBotUser u)
  | none => false

/-- The participant list `add_expense` actually splits over: the explicit
list filtered to existing, non-bot users (or the group's non-bot members
when omitted), with the first occurrence of the creator removed
(`participants.remove(admin_id)`). -/
def resolveParticipants (db : DB) (gid : Int) (admin_id : Nat)
    (pso : Option (List Nat)) : List Nat :=
  let ps0 :=
    match pso with
    | none => (get_group_members db gid true).map (fun (m : UserRow) => m.user_id)
    | some ps => ps.filter (fun uid => participantKeep db uid)
  ps0.erase admin_id

/-- Embeds `add_expense` (db_manager.py lines 277-344): resolve/filter participants,
insert the expense row, insert one unpaid debt of `amount / len(participants)`
per participant; any sqlite error rolls the whole transaction back and
returns `None`. -/
def add_expense (db : DB) (gid : Int) (amount : ℚ) (description : String)
    (admin_id : Nat) (file_id : Option String) (pso : Option (List Nat)) :
    DB × Option Nat :=
  let ps := resolveParticipants db gid admin_id pso
  let eid := db.next_expense_id
  let expRow : ExpenseRow :=
    ⟨eid, gid, amount, description, db.now, admin_id, file_id, ps⟩
  let individual_amount := amount / (ps.length : ℚ)
  match insertDebtsAux eid individual_amount ps db.debts with
  | none => (db, none)
  | some newDebts =>
      ({ db with expenses := db.expenses ++ [expRow],
                 debts := newDebts,
                 next_expense_id := eid + 1 }, some eid)

/-- View row returned by `get_user_debts`
(`SELECT d.*, e.description, e.date, e.group_id ...`): note there is no
`id` column. -/
structure DebtJoinRow where
  user_id : Nat
  expense_id : Nat
  amount : ℚ
  status : DebtStatus
  description : String
  date : Nat
  group_id : Int
deriving DecidableEq, Repr

/-- Python `dict(row)` key lookup on a `get_user_debts` result row; the
available keys are exactly the selected columns. -/
def DebtJoinRow.get (d : DebtJoinRow) (k : String) : Option PyVal :=
  if k = "user_id" then some (PyVal.int d.user_id) else
  if k = "expense_id" then some (PyVal.int d.expense_id) else
  if k = "amount" then some (PyVal.rat d.amount) else
  if k = "status" then some (PyVal.str (if d.status = DebtStatus.paid then "paid" else "unpaid")) else
  if k = "description" then some (PyVal.str d.description) else
  if k = "date" then some (PyVal.int d.date) else
  if k = "group_id" then some (PyVal.int d.group_id) else
  none

/-- Models the `sqlite3.Row` key lookup on a `SELECT * FROM debts` row; the available
keys are exactly the table's columns (there is no `id`). -/
def DebtRow.get (d : DebtRow) (k : String) : Option PyVal :=
  if k = "user_id" then some (PyVal.int d.user_id) else
  if k = "expense_id" then some (PyVal.int d.expense_id) else
  if k = "amount" then some (PyVal.rat d.amount) else
  if k = "status" then some (PyVal.str (if d.status = DebtStatus.paid then "paid" else "unpaid")) else
  none

/-- Stable insertion into a sorted list (ties keep the incoming element
first), modelling Python's stable `sort`/SQL `ORDER BY`. -/
def insertSorted (le : α → α → Bool) (x : α) : List α → List α
  | [] => [x]
  | y :: ys => if le x y then x :: y :: ys else y :: insertSorted le x ys

/-- Stable insertion sort. -/
def stableSort (le : α → α → Bool) : List α → List α
  | [] => []
  | x :: xs => insertSorted le x (stableSort le xs)

/-- Embeds `get_user_debts` (db_manager.py lines 404-436): unpaid debts joined with
their expenses, optionally filtered to a group (Python truthiness: a zero
`group_id` disables the filter), ordered by expense date descending. -/
def get_user_debts (db : DB) (uid : Nat) (gido : Option Int) : List DebtJoinRow :=
  let rows := db.debts.filterMap (fun d =>
    match db.expenses.find? (fun e => e.id = d.expense_id) with
    | some e =>
        let groupOk : Bool :=
          match gido with
          | some g => if g ≠ 0 then decide (e.group_id = g) else true
          | none => true
        if d.user_id = uid ∧ d.status = DebtStatus.unpaid ∧ groupOk = true then
          some ⟨d.user_id, d.expense_id, d.amount, d.status,
                e.description, e.date, e.group_id⟩
        else none
    | none => none)
  stableSort (fun a b => decide (b.date ≤ a.date)) rows

/-- Embeds `SELECT * FROM transactions WHERE id = ?`. -/
def get_transaction (db : DB) (tid : Nat) : Option TxRow :=
  db.transactions.find? (fun t => t.id = tid)

/-- Embeds `UPDATE debts SET status = 'paid' WHERE user_id = ? AND expense_id = ?
AND status = 'unpaid'`. -/
def markDebtPaid (debts : List DebtRow) (uid eid : Nat) : List DebtRow :=
  debts.map (fun d =>
    if d.user_id = uid ∧ d.expense_id = eid ∧ d.status = DebtStatus.unpaid then
      { d with status := DebtStatus.paid }
    else d)

/-- Embeds `UPDATE debts SET amount = ? WHERE user_id = ? AND expense_id = ?
AND status = 'unpaid'`. -/
def setDebtAmount (debts : List DebtRow) (uid eid : Nat) (amt : ℚ) : List DebtRow :=
  debts.map (fun d =>
    if d.user_id = uid ∧ d.expense_id = eid ∧ d.status = DebtStatus.unpaid then
      { d with amount := amt }
    else d)

/-- The debt-payoff loop of `update_transaction_status` (db_manager.py lines
532-554). Before touching each debt the code logs an f-string that reads
`debt['id']`; that key does not exist in the fetched row, so the lookup is
modelled faithfully via `DebtJoinRow.get` and raises (returns an error). -/
def payoffDebts (recv : Nat) : List DebtJoinRow → ℚ → List DebtRow →
    Except String (List DebtRow)
  | [], _, debts => Except.ok debts
  | d :: rest, remaining, debts =>
    if remaining ≤ 0 then Except.ok debts
    else
      match d.get "id" with
      | none => Except.error "KeyError: id"
      | some _ =>
        if remaining ≥ d.amount then
          payoffDebts recv rest (remaining - d.amount)
            (markDebtPaid debts recv d.expense_id)
        else
          payoffDebts recv rest 0
            (setDebtAmount debts recv d.expense_id (d.amount - remaining))

/-- Embeds `update_transaction_status` (db_manager.py lines 501-563): set the
transaction's status (committed at once); on `confirmed`, fetch the
receiver's unpaid debts in the transfer's group, sort oldest-first, and run
the payoff loop; an uncaught exception rolls the loop's updates back while
the already-committed status change persists. -/
def update_transaction_status (db : DB) (tid : Nat) (status : TxStatus) :
    DB × Except String Bool :=
  let db1 := { db with transactions := db.transactions.map (fun t =>
    if t.id = tid then { t with status := status } else t) }
  if status = TxStatus.confirmed then
    match get_transaction db1 tid with
    | none => (db1, Except.ok true)
    | some tx =>
      let debts0 := get_user_debts db1 tx.receiver_id (some tx.group_id)
      let debts1 := stableSort (fun a b => decide (a.date ≤ b.date)) debts0
      match payoffDebts tx.receiver_id debts1 tx.amount db1.debts with
      | Except.ok newDebts => ({ db1 with debts := newDebts }, Except.ok true)
      | Except.error e => (db1, Except.error e)
  else
    (db1, Except.ok true)

/-- The object returned by `get_expense_with_debts`: the expense row with
parsed participants and the nested debt rows (joined with `users`). -/
structure ExpenseWithDebts where
  expense : ExpenseRow
  debts : List (DebtRow × UserRow)
deriving DecidableEq, Repr

/-- Embeds `get_expense_with_debts` (db_manager.py lines 600-640): the expense row
(or `None`), plus all its debt rows inner-joined with `users`. -/
def get_expense_with_debts (db : DB) (eid : Nat) : Option ExpenseWithDebts :=
  match db.expenses.find? (fun e => e.id = eid) with
  | none => none
  | some e =>
      let ds := db.debts.filterMap (fun d =>
        if d.expense_id = eid then
          match findUser db d.user_id with
          | some u => some (d, u)
          | none => none
        else none)
      some ⟨e, ds⟩

/-- The debt-rescale loop of `update_expense_amount` (db_manager.py lines
676-688): per debt, compute the proportional new amount, then run
`UPDATE debts ... WHERE id = ?` with parameter `debt['id']` — the row has
no such key, so the parameter lookup raises (modelled via `DebtRow.get`). -/
def rescaleDebtsLoop (old_amount new_amount new_individual : ℚ) :
    List DebtRow → List DebtRow → Except String (List DebtRow)
  | [], debts => Except.ok debts
  | d :: rest, debts =>
    let new_debt_amount :=
      if old_amount > 0 then new_amount * (d.amount / old_amount)
      else new_individual
    match d.get "id" with
    | none => Except.error "IndexError: no item with key id"
    | some _ =>
        rescaleDebtsLoop old_amount new_amount new_individual rest
          (debts.map (fun (x : DebtRow) =>
            if x = d then { x with amount := new_debt_amount } else x))

/-- Embeds `update_expense_amount` (db_manager.py lines 642-696): look up the
expense; with no participants just update the amount; otherwise update the
amount and rescale every debt row proportionally. An uncaught exception in
the loop rolls the uncommitted updates back (connection closed without
commit), leaving the database unchanged. -/
def update_expense_amount (db : DB) (eid : Nat) (new_amount : ℚ) :
    DB × Except String (Bool × String) :=
  match db.expenses.find? (fun e => e.id = eid) with
  | none => (db, Except.ok (false, "expense not found"))
  | some e =>
    let old_amount := e.amount
    let participants := e.participants
    if participants.isEmpty then
      ({ db with expenses := db.expenses.map (fun x =>
          if x.id = eid then { x with amount := new_amount } else x) },
       Except.ok (true, "amount updated"))
    else
      let new_individual := new_amount / (participants.length : ℚ)
      let db1 : DB := { db with expenses := db.expenses.map (fun (x : ExpenseRow) =>
          if x.id = eid then { x with amount := new_amount } else x) }
      let ds := db1.debts.filter (fun d => d.expense_id = eid)
      match rescaleDebtsLoop old_amount new_amount new_individual ds db1.debts with
      | Except.error e => (db, Except.error e)
      | Except.ok newDebts =>
          ({ db1 with debts := newDebts }, Except.ok (true, "amount and debts updated"))

/-- Result of an `expense_handler` operation: `(True, id)` or
`(False, message)`. -/
inductive HandleResult where
  | ok (result_id : Nat)
  | fail (msg : String)
deriving DecidableEq, Repr

/-- Embeds `handle_new_expense` (expense_handler.py lines 10-29): validates
`amount > 0` before touching the database; on a non-positive amount it
returns a failure tuple without calling `add_expense`. -/
def handle_new_expense (db : DB) (gid : Int) (amount : ℚ) (description : String)
    (admin_id : Nat) (file_id : Option String) (pso : Option (List Nat)) :
    DB × HandleResult :=
  if amount ≤ 0 then (db, HandleResult.fail "Сумма должна быть больше нуля")
  else
    match add_expense db gid amount description admin_id file_id pso with
    | (db1, some eid) => (db1, HandleResult.ok eid)
    | (db1, none) => (db1, HandleResult.fail "Не удалось добавить расход")

/-- Embeds `confirm_transaction` (expense_handler.py lines 89-102): delegates to
`update_transaction_status(..., 'confirmed')`; an exception escaping it is
caught and turned into a failure tuple. -/
def confirm_transaction (db : DB) (tid : Nat) : DB × Bool × String :=
  match update_transaction_status db tid TxStatus.confirmed with
  | (db1, Except.ok true) => (db1, true, "Транзакция подтверждена")
  | (db1, Except.ok false) => (db1, false, "Не удалось подтвердить транзакцию")
  | (db1, Except.error e) => (db1, false, "Ошибка: " ++ e)

/-- Embeds `reject_transaction` (expense_handler.py lines 104-116): delegates to
`update_transaction_status(..., 'rejected')`. -/
def reject_transaction (db : DB) (tid : Nat) : DB × Bool × String :=
  match update_transaction_status db tid TxStatus.rejected with
  | (db1, Except.ok true) => (db1, true, "Транзакция отклонена")
  | (db1, Except.ok false) => (db1, false, "Не удалось отклонить транзакцию")
  | (db1, Except.error e) => (db1, false, "Ошибка: " ++ e)

/-!
### Pending-operation registry and the ephemeral-message lifecycle
(`bot_commands.py`)
-/

/-- An entry of `user_pending_operations` (the payload dict is irrelevant to
the claims and omitted). -/
structure PendingOp where
  optype : String
  chat_id : Int
  message_id : Nat
  start_time : Nat
  completed : Bool
deriving DecidableEq, Repr

/-- The `user_pending_operations` dict: user id to pending-operation entry. -/
def Registry := List (Nat × PendingOp)

/-- Dict key lookup `user_pending_operations[user_id]`. -/
def regLookup (reg : Registry) (uid : Nat) : Option PendingOp :=
  (List.find? (fun (e : Nat × PendingOp) => e.1 = uid) reg).map (fun e => e.2)

/-- Dict key assignment (overwrite-or-insert). -/
def regSet (reg : Registry) (uid : Nat) (op : PendingOp) : Registry :=
  (uid, op) :: List.filter (fun (e : Nat × PendingOp) => e.1 ≠ uid) reg

/-- Embeds `register_pending_operation` (bot_commands.py lines 206-232): always
overwrites any prior entry, with `completed = False`. -/
def register_pending_operation (reg : Registry) (uid : Nat) (optype : String)
    (chat_id : Int) (message_id : Nat) (start_time : Nat) : Registry :=
  regSet reg uid ⟨optype, chat_id, message_id, start_time, false⟩

/-- Embeds `complete_pending_operation` (bot_commands.py lines 234-243): set
`completed = True` in place if an entry exists, otherwise no-op. -/
def complete_pending_operation (reg : Registry) (uid : Nat) : Registry :=
  if (regLookup reg uid).isSome then
    List.map (fun (e : Nat × PendingOp) =>
      if e.1 = uid then (e.1, { e.2 with completed := true }) else e) reg
  else reg

/-- Embeds `user_pending_operations.pop(user_id, None)`. -/
def regPop (reg : Registry) (uid : Nat) : Registry :=
  List.filter (fun (e : Nat × PendingOp) => e.1 ≠ uid) reg

/-- Observable actions of one `delayed_message_deletion` task run. -/
inductive DelEvent where
  | reminder
  | abortNotice
  | deleteMessage
deriving DecidableEq, Repr

/-- The pending-check of `delayed_message_deletion` (bot_commands.py lines
97-101 and 131-133): an operation is pending when the registry holds an
entry for the user with the matching type that is not completed. -/
def operationPendingCheck (reg : Registry) (uid : Nat) (optype : String) : Bool :=
  match regLookup reg uid with
  | some op => op.optype = optype && !op.completed
  | none => false

/-- Embeds `delayed_message_deletion` for a message with an associated user and
operation type and `extend_if_pending = True` (bot_commands.py lines 90-156),
as a function of the registry snapshots read at the reminder checkpoint
(T+4 min) and at the abort checkpoint (T+5 min): the events it emits and the
registry it leaves behind. A reminder is sent only when the first check finds
the operation pending; the abort notice and the registry purge additionally
require the second check to still find it pending. -/
def delayedDeletionEvents (reg4 reg5 : Registry) (uid : Nat) (optype : String) :
    List DelEvent × Registry :=
  let operation_pending := operationPendingCheck reg4 uid optype
  let evs1 := if operation_pending then [DelEvent.reminder] else []
  if operation_pending && operationPendingCheck reg5 uid optype then
    (evs1 ++ [DelEvent.abortNotice, DelEvent.deleteMessage], regPop reg5 uid)
  else
    (evs1 ++ [DelEvent.deleteMessage], reg5)

/-!
### The deletion-timer table (`message_deletion_tasks`)
-/

/-- Status of an asyncio task backing a scheduled deletion: `active`
(running, not yet cancelled), `cancelled` (cancellation requested), `done`
(finished; `Task.done()` is true). -/
inductive TaskStatus where
  | active
  | cancelled
  | done
deriving DecidableEq, Repr

/-- One deletion task ever created, identified by a unique id. -/
structure TimerTask where
  task_id : Nat
  key : Int × Nat
  status : TaskStatus
deriving DecidableEq, Repr

/-- The scheduler state: all tasks ever created, the
`message_deletion_tasks` dict mapping a `(chat_id, message_id)` key to the
id of the task last registered for it, and a fresh-id counter. -/
structure Sched where
  tasks : List TimerTask
  table : List ((Int × Nat) × Nat)
  next_task_id : Nat
deriving DecidableEq, Repr

/-- Dict lookup `message_deletion_tasks[key]`. -/
def tableLookup (t : List ((Int × Nat) × Nat)) (k : Int × Nat) : Option Nat :=
  (List.find? (fun (e : (Int × Nat) × Nat) => e.1 = k) t).map (fun e => e.2)

/-- Dict assignment `message_deletion_tasks[key] = task`. -/
def tableSet (t : List ((Int × Nat) × Nat)) (k : Int × Nat) (tid : Nat) :
    List ((Int × Nat) × Nat) :=
  (k, tid) :: List.filter (fun (e : (Int × Nat) × Nat) => e.1 ≠ k) t

/-- Embeds `Task.done()` by task id. -/
def taskDone (s : Sched) (tid : Nat) : Bool :=
  match s.tasks.find? (fun t => t.task_id = tid) with
  | some t => t.status = TaskStatus.done
  | none => false

/-- Embeds `Task.cancel()` by task id: an active task becomes cancelled. -/
def cancelTask (s : Sched) (tid : Nat) : Sched :=
  { s with tasks := s.tasks.map (fun t =>
      if t.task_id = tid ∧ t.status = TaskStatus.active then
        { t with status := TaskStatus.cancelled }
      else t) }

/-- The first half of `schedule_message_deletion` (bot_commands.py lines
54-56): if a not-done task is already registered for the key, cancel it. -/
def cancelExisting (s : Sched) (k : Int × Nat) : Sched :=
  match tableLookup s.table k with
  | some tid => if !(taskDone s tid) then cancelTask s tid else s
  | none => s

/-- Embeds `schedule_message_deletion` (bot_commands.py lines 33-67): if a not-done
task is already registered for the `(chat_id, message_id)` key, cancel it;
then create a fresh task and register it under the key. -/
def schedule_message_deletion (s : Sched) (k : Int × Nat) : Sched :=
  let s1 := cancelExisting s k
  { s1 with
    tasks := s1.tasks ++ [⟨s1.next_task_id, k, TaskStatus.active⟩],
    table := tableSet s1.table k s1.next_task_id,
    next_task_id := s1.next_task_id + 1 }

/-- The number of active deletion timers for a key. -/
def activeTimers (s : Sched) (k : Int × Nat) : Nat :=
  (s.tasks.filter (fun t => t.key = k ∧ t.status = TaskStatus.active)).length

/-- Scheduler-state invariant maintained by the code: task ids are unique
and below the fresh-id counter, and every active task is the one registered
in `message_deletion_tasks` for its key. -/
structure SchedInv (s : Sched) : Prop where
  nodup_ids : (s.tasks.map (fun t => t.task_id)).Nodup
  fresh : ∀ t ∈ s.tasks, t.task_id < s.next_task_id
  active_reg : ∀ t ∈ s.tasks, t.status = TaskStatus.active →
    tableLookup s.table t.key = some t.task_id

/-- Embeds `user_intro_lastname_step` (bot_commands.py lines 2948-2979): the final
step of the new-member-introduction flow. With an `intro_user_id` in the
conversation context, it calls `save_user(user_id, None, name, lastname)`. -/
def user_intro_lastname_step (db : DB) (intro_user_id : Option Nat)
    (intro_name : String) (lastname : String) : DB :=
  match intro_user_id with
  | some uid => save_user db uid none (some intro_name) (some lastname)
  | none => db

/-!
### Concrete database states used as test fixtures
-/

/-- Fixture for the confirm-payoff scenario: receiver 2 has unpaid debts of
10 (expense 1, older) and 15 (expense 2, newer) in group 1, and transaction
1 transfers 12 from sender 3 to receiver 2, pending. -/
def dbPayoff : DB where
  users := [⟨2, some "recv", some "Rita", none⟩, ⟨3, some "snd", some "Sam", none⟩]
  group_members := [(1, 2), (1, 3)]
  expenses := [⟨1, 1, 10, "groceries", 1, 3, none, [2]⟩,
               ⟨2, 1, 15, "taxi", 2, 3, none, [2]⟩]
  debts := [⟨2, 1, 10, DebtStatus.unpaid⟩, ⟨2, 2, 15, DebtStatus.unpaid⟩]
  transactions := [⟨1, 1, 3, 2, 12, 3, TxStatus.pending⟩]
  next_expense_id := 3
  next_tx_id := 2
  now := 5

/-- Fixture for the amount-edit scenario: expense 1 of amount 100 split
between participants 2 and 3 (50 each, unpaid). -/
def dbEdit : DB where
  users := [⟨1, some "adm", some "Ada", none⟩, ⟨2, some "bee", some "Ben", none⟩,
            ⟨3, some "cee", some "Cam", none⟩]
  group_members := [(1, 1), (1, 2), (1, 3)]
  expenses := [⟨1, 1, 100, "dinner", 1, 1, none, [2, 3]⟩]
  debts := [⟨2, 1, 50, DebtStatus.unpaid⟩, ⟨3, 1, 50, DebtStatus.unpaid⟩]
  transactions := []
  next_expense_id := 2
  next_tx_id := 1
  now := 5

/-- Fixture with three human members of group 1 and an empty ledger. -/
def dbTrio : DB where
  users := [⟨1, some "ann", some "Ann", none⟩, ⟨2, some "ben", some "Ben", none⟩,
            ⟨3, some "cyn", some "Cyn", none⟩]
  group_members := [(1, 1), (1, 2), (1, 3)]
  expenses := []
  debts := []
  transactions := []
  next_expense_id := 1
  next_tx_id := 1
  now := 0

/-- Fixture for the introduction flow: user 5 already has the handle
`alice`. -/
def dbIntro : DB where
  users := [⟨5, some "alice", some "Alice", some "Smith"⟩]
  group_members := [(1, 5)]
  expenses := []
  debts := []
  transactions := []
  next_expense_id := 1
  next_tx_id := 1
  now := 0

/-!
### Claim theorems
-/

/-- C1: settling the transfer of amount 12 with decision confirm against
receiver debts `[d1 = 10 (older), d2 = 15]` does NOT pay d1 off and does
NOT reduce d2 to 13: the payoff loop reads `debt['id']` in its log line,
a key absent from the fetched rows, so a `KeyError` aborts the loop before
the first debt update; only the already-committed status change to
`confirmed` survives and every debt row is left unchanged. -/
theorem confirm_payoff_crashes_before_any_debt_update :
    update_transaction_status dbPayoff 1 TxStatus.confirmed =
      ({ dbPayoff with transactions := [⟨1, 1, 3, 2, 12, 3, TxStatus.confirmed⟩] },
       Except.error "KeyError: id") ∧
    (update_transaction_status dbPayoff 1 TxStatus.confirmed).1.debts =
      [⟨2, 1, 10, DebtStatus.unpaid⟩, ⟨2, 2, 15, DebtStatus.unpaid⟩] := by
  decide

/-- C2: editing the amount of an expense that has debt rows does not
rescale them proportionally: the update statement's parameter `debt['id']`
refers to a column the `debts` table does not have, the lookup raises, and
the connection is closed without commit, so the whole edit (including the
expense-amount update) is rolled back. Here: expense 1 (amount 100, debts
50/50) edited to 80 leaves the database exactly as it was. -/
theorem edit_amount_crashes_and_rolls_back :
    update_expense_amount dbEdit 1 80 =
      (dbEdit, Except.error "IndexError: no item with key id") := by
  decide

/-- C4: `handle_new_expense` rejects every non-positive amount with the
validation failure message, without creating an expense row or any debt
rows — the database is returned unchanged. -/
theorem create_expense_rejects_nonpositive_amount
    (db : DB) (gid : Int) (amount : ℚ) (desc : String) (admin : Nat)
    (fid : Option String) (pso : Option (List Nat)) (h : amount ≤ 0) :
    handle_new_expense db gid amount desc admin fid pso =
      (db, HandleResult.fail "Сумма должна быть больше нуля") := by
  simp [handle_new_expense, h]

/-- Witness for C4 at `amount = 0` on the `dbTrio` fixture. -/
theorem create_expense_rejects_nonpositive_amount_witness :
    (0 : ℚ) ≤ 0 ∧
    handle_new_expense dbTrio 1 0 "x" 1 none none =
      (dbTrio, HandleResult.fail "Сумма должна быть больше нуля") :=
  ⟨le_refl 0,
   create_expense_rejects_nonpositive_amount dbTrio 1 0 "x" 1 none none (le_refl 0)⟩

/-- C5: settling any transfer with decision reject sets its status to
`rejected` and leaves every debt row (indeed the whole debts table)
unchanged. -/
theorem reject_transfer_preserves_debts (db : DB) (tid : Nat) :
    (reject_transaction db tid).1.debts = db.debts ∧
    (reject_transaction db tid).1.transactions =
      db.transactions.map (fun t =>
        if t.id = tid then { t with status := TxStatus.rejected } else t) := by
  simp [reject_transaction, update_transaction_status]

/-- C7: completing the new-member-introduction flow for a user whose handle
is `alice` overwrites that handle with null: the final step calls
`save_user(user_id, None, name, lastname)` and `save_user` unconditionally
updates all three name columns, contradicting the code's own comment that
the username must not be clobbered. -/
theorem intro_flow_nulls_existing_handle :
    (findUser dbIntro 5).map (fun u => u.username) = some (some "alice") ∧
    (user_intro_lastname_step dbIntro (some 5) "Ivan" "Petrov").users =
      [⟨5, none, some "Ivan", some "Petrov"⟩] := by
  decide

/-- C8: registering a pending operation and completing it before the
reminder checkpoint leaves the registry entry with `completed = true`; the
T+4 reminder check then fails, so the task neither sends the reminder nor
(regardless of the registry's state at the abort checkpoint) sends the
abort notice or purges the entry — only the final deletion happens. -/
theorem completed_operation_skips_reminder_and_abort
    (reg reg5 : Registry) (uid : Nat) (ty : String) (chat : Int) (mid t0 : Nat) :
    (regLookup (complete_pending_operation
        (register_pending_operation reg uid ty chat mid t0) uid) uid).map
      (fun op => op.completed) = some true ∧
    delayedDeletionEvents
      (complete_pending_operation (register_pending_operation reg uid ty chat mid t0) uid)
      reg5 uid ty = ([DelEvent.deleteMessage], reg5) := by
  have hlook : regLookup (complete_pending_operation
      (register_pending_operation reg uid ty chat mid t0) uid) uid =
      some ⟨ty, chat, mid, t0, true⟩ := by
    simp [register_pending_operation, complete_pending_operation, regSet, regLookup,
      List.find?]
  refine ⟨by simp [hlook], ?_⟩
  simp [delayedDeletionEvents, operationPendingCheck, hlook]

/-- Every insert the debt-insertion loop performs appends one unpaid row of
the individual amount, so a successful run returns the original table
followed by one new row per participant, in order. -/
theorem insertDebtsAux_shape (eid : Nat) (amt : ℚ) :
    ∀ (ps : List Nat) (acc r : List DebtRow),
      insertDebtsAux eid amt ps acc = some r →
      r = acc ++ ps.map (fun u => ⟨u, eid, amt, DebtStatus.unpaid⟩) := by
  intro ps
  induction ps with
  | nil => intro acc r h; simpa [insertDebtsAux] using h.symm
  | cons u rest ih =>
    intro acc r h
    rw [insertDebtsAux] at h
    by_cases hdup : acc.any (fun d => d.user_id = u && d.expense_id = eid) = true
    · simp [hdup] at h
    · simp only [hdup, Bool.false_eq_true, if_false] at h
      have := ih (acc ++ [⟨u, eid, amt, DebtStatus.unpaid⟩]) r h
      simpa [List.append_assoc] using this

/-- The debt-insertion loop succeeds whenever the participants are pairwise
distinct and none of them already has a debt row for the (fresh) expense
id. -/
theorem insertDebtsAux_ok (eid : Nat) (amt : ℚ) :
    ∀ (ps : List Nat) (acc : List DebtRow),
      ps.Nodup →
      (∀ u ∈ ps, ∀ d ∈ acc, ¬(d.user_id = u ∧ d.expense_id = eid)) →
      insertDebtsAux eid amt ps acc =
        some (acc ++ ps.map (fun u => ⟨u, eid, amt, DebtStatus.unpaid⟩)) := by
  intro ps
  induction ps with
  | nil => intro acc _ _; simp [insertDebtsAux]
  | cons u rest ih =>
    intro acc hnd hclean
    have hnomem : acc.any (fun d => d.user_id = u && d.expense_id = eid) = false := by
      rw [List.any_eq_false]
      intro d hd
      have := hclean u (by simp) d hd
      simpa [Decidable.not_and_iff_or_not] using this
    rw [insertDebtsAux, hnomem]
    simp only [Bool.false_eq_true, if_false]
    have hrest : insertDebtsAux eid amt rest (acc ++ [⟨u, eid, amt, DebtStatus.unpaid⟩]) =
        some ((acc ++ [⟨u, eid, amt, DebtStatus.unpaid⟩]) ++
          rest.map (fun v => ⟨v, eid, amt, DebtStatus.unpaid⟩)) := by
      apply ih
      · exact hnd.of_cons
      · intro v hv d hd
        rcases List.mem_append.mp hd with hold | hnew
        · exact hclean v (by simp [hv]) d hold
        · have hne : u ≠ v := by
            intro hEq
            exact (List.nodup_cons.mp hnd).1 (hEq ▸ hv)
          simp only [List.mem_singleton] at hnew
          subst hnew
          intro hc
          exact hne hc.1
    rw [hrest]
    simp [List.append_assoc]

/-- C3 counterexample: a participants list of existing, non-bot users not
containing the creator, but with a duplicated id. The second debt insert
violates the `(user_id, expense_id)` primary key, the whole transaction is
rolled back and `add_expense` returns `None`: zero debt rows are created,
not `len(participants) = 2`. -/
theorem create_expense_duplicate_participants_creates_no_rows :
    add_expense dbTrio 1 90 "trip" 1 none (some [2, 2]) = (dbTrio, none) ∧
    (add_expense dbTrio 1 90 "trip" 1 none (some [2, 2])).1.debts.length ≠ 2 := by
  decide

/-- C3 (amended with pairwise-distinct participants): for a positive amount
and a non-empty, duplicate-free list of existing, non-bot participants not
containing the creator, `add_expense` succeeds and appends exactly
`len(participants)` debt rows, each unpaid and each equal to
`amount / len(participants)`, so the new rows sum to the amount. -/
theorem create_expense_splits_evenly_over_distinct_participants
    (db : DB) (gid : Int) (amount : ℚ) (desc : String) (admin : Nat)
    (fid : Option String) (ps : List Nat)
    (hpos : 0 < amount) (hne : ps ≠ []) (hnd : ps.Nodup)
    (hex : ∀ u ∈ ps, participantKeep db u = true)
    (hadm : admin ∉ ps)
    (hfresh : ∀ d ∈ db.debts, d.expense_id ≠ db.next_expense_id) :
    (add_expense db gid amount desc admin fid (some ps)).2 = some db.next_expense_id ∧
    (add_expense db gid amount desc admin fid (some ps)).1.debts =
      db.debts ++ ps.map (fun u =>
        ⟨u, db.next_expense_id, amount / (ps.length : ℚ), DebtStatus.unpaid⟩) ∧
    ((add_expense db gid amount desc admin fid (some ps)).1.debts.drop
        db.debts.length).length = ps.length ∧
    (∀ d ∈ (add_expense db gid amount desc admin fid (some ps)).1.debts.drop
        db.debts.length, d.status = DebtStatus.unpaid) ∧
    (((add_expense db gid amount desc admin fid (some ps)).1.debts.drop
        db.debts.length).map (fun d => d.amount)).sum = amount := by
  have hres : resolveParticipants db gid admin (some ps) = ps := by
    show (List.filter (fun uid => participantKeep db uid) ps).erase admin = ps
    rw [List.filter_eq_self.mpr hex, List.erase_of_not_mem hadm]
  have hins : insertDebtsAux db.next_expense_id (amount / (ps.length : ℚ)) ps db.debts =
      some (db.debts ++ ps.map (fun u =>
        ⟨u, db.next_expense_id, amount / (ps.length : ℚ), DebtStatus.unpaid⟩)) := by
    apply insertDebtsAux_ok
    · exact hnd
    · intro u _ d hd hc
      exact hfresh d hd hc.2
  have hmain : add_expense db gid amount desc admin fid (some ps) =
      ({ db with
          expenses := db.expenses ++
            [⟨db.next_expense_id, gid, amount, desc, db.now, admin, fid, ps⟩],
          debts := db.debts ++ ps.map (fun u =>
            ⟨u, db.next_expense_id, amount / (ps.length : ℚ), DebtStatus.unpaid⟩),
          next_expense_id := db.next_expense_id + 1 },
       some db.next_expense_id) := by
    rw [add_expense]
    simp only [hres, hins]
  rw [hmain]
  have hlen : ((ps.length : ℚ)) ≠ 0 := by
    have : ps.length ≠ 0 := fun h0 => hne (List.eq_nil_of_length_eq_zero h0)
    exact_mod_cast this
  refine ⟨rfl, rfl, ?_, ?_, ?_⟩
  · simp [List.drop_left]
  · intro d hd
    simp only [List.drop_left] at hd
    rcases List.mem_map.mp hd with ⟨u, _, rfl⟩
    rfl
  · rw [List.drop_left]
    have hmap : (ps.map (fun u =>
        (⟨u, db.next_expense_id, amount / (ps.length : ℚ), DebtStatus.unpaid⟩ :
          DebtRow))).map (fun d => d.amount) =
        ps.map (fun _ => amount / (ps.length : ℚ)) := by
      rw [List.map_map]; rfl
    rw [hmap]
    rw [List.map_const', List.sum_replicate, nsmul_eq_mul, mul_comm,
      div_mul_cancel₀ _ hlen]

/-- Witness for C3 at the spec's scenario: group of A (creator), B, C and
`create_expense(amount = 90, participants = [B, C])` — B and C each owe 45
and A owes nothing. -/
theorem create_expense_splits_evenly_witness :
    (0 : ℚ) < 90 ∧
    ((add_expense dbTrio 1 90 "trip" 1 none (some [2, 3])).2 =
        some dbTrio.next_expense_id ∧
      (add_expense dbTrio 1 90 "trip" 1 none (some [2, 3])).1.debts =
        dbTrio.debts ++ [2, 3].map (fun u =>
          ⟨u, dbTrio.next_expense_id, 90 / (([2, 3] : List Nat).length : ℚ),
            DebtStatus.unpaid⟩) ∧
      ((add_expense dbTrio 1 90 "trip" 1 none (some [2, 3])).1.debts.drop
          dbTrio.debts.length).length = ([2, 3] : List Nat).length ∧
      (∀ d ∈ (add_expense dbTrio 1 90 "trip" 1 none (some [2, 3])).1.debts.drop
          dbTrio.debts.length, d.status = DebtStatus.unpaid) ∧
      (((add_expense dbTrio 1 90 "trip" 1 none (some [2, 3])).1.debts.drop
          dbTrio.debts.length).map (fun d => d.amount)).sum = 90) :=
  ⟨by norm_num,
   create_expense_splits_evenly_over_distinct_participants dbTrio 1 90 "trip" 1 none
     [2, 3] (by norm_num) (by decide) (by decide) (by decide) (by decide) (by decide)⟩

/-- C10 counterexample: an explicit list `[A, A]` duplicating the creator A.
`list.remove` drops only the first occurrence, so A stays in the filtered
list, the stored participants are `[A]` and A — the creator — receives the
full debt, contradicting "the creator is removed if present". -/
theorem explicit_duplicate_creator_not_removed :
    (add_expense dbTrio 1 50 "solo" 1 none (some [1, 1])).2 = some 1 ∧
    (add_expense dbTrio 1 50 "solo" 1 none (some [1, 1])).1.debts.map
      (fun d => d.user_id) = [1] ∧
    (add_expense dbTrio 1 50 "solo" 1 none (some [1, 1])).1.expenses.map
      (fun e => e.participants) = [[1]] := by
  decide

/-- C10 (amended with a duplicate-free passed list): `add_expense` with an
explicit participants list silently drops ids without a users row and users
whose username or first name contains `bot` (case-insensitively), removes
the creator, stores the filtered list on the expense row, and creates one
unpaid debt of `amount / len(filtered)` per remaining participant — still
succeeding, with zero debt rows, when the filtered list is empty. -/
theorem explicit_participants_filtered_before_split
    (db : DB) (gid : Int) (amount : ℚ) (desc : String) (admin : Nat)
    (fid : Option String) (ps : List Nat)
    (hne : ps ≠ []) (hnd : ps.Nodup)
    (hfresh : ∀ d ∈ db.debts, d.expense_id ≠ db.next_expense_id) :
    (add_expense db gid amount desc admin fid (some ps)).2 = some db.next_expense_id ∧
    (add_expense db gid amount desc admin fid (some ps)).1.expenses =
      db.expenses ++ [⟨db.next_expense_id, gid, amount, desc, db.now, admin, fid,
        resolveParticipants db gid admin (some ps)⟩] ∧
    (add_expense db gid amount desc admin fid (some ps)).1.debts =
      db.debts ++ (resolveParticipants db gid admin (some ps)).map (fun u =>
        ⟨u, db.next_expense_id,
          amount / ((resolveParticipants db gid admin (some ps)).length : ℚ),
          DebtStatus.unpaid⟩) := by
  have hndf : (resolveParticipants db gid admin (some ps)).Nodup := by
    rw [resolveParticipants]
    exact (hnd.filter _).erase admin
  have hins : insertDebtsAux db.next_expense_id
      (amount / ((resolveParticipants db gid admin (some ps)).length : ℚ))
      (resolveParticipants db gid admin (some ps)) db.debts =
      some (db.debts ++ (resolveParticipants db gid admin (some ps)).map (fun u =>
        ⟨u, db.next_expense_id,
          amount / ((resolveParticipants db gid admin (some ps)).length : ℚ),
          DebtStatus.unpaid⟩)) := by
    apply insertDebtsAux_ok
    · exact hndf
    · intro u _ d hd hc
      exact hfresh d hd hc.2
  rw [add_expense]
  simp only [hins]
  exact ⟨trivial, trivial, trivial⟩

/-- Witness for C10: from the trio fixture, the passed list `[2, 3, 9]`
(9 has no users row) with creator 1; the filtered list is `[2, 3]` and each
gets an unpaid debt of 45. -/
theorem explicit_participants_filtered_witness :
    ([2, 3, 9] : List Nat) ≠ [] ∧
    ((add_expense dbTrio 1 90 "trip" 1 none (some [2, 3, 9])).2 =
        some dbTrio.next_expense_id ∧
      (add_expense dbTrio 1 90 "trip" 1 none (some [2, 3, 9])).1.expenses =
        dbTrio.expenses ++ [⟨dbTrio.next_expense_id, 1, 90, "trip", dbTrio.now, 1,
          none, resolveParticipants dbTrio 1 1 (some [2, 3, 9])⟩] ∧
      (add_expense dbTrio 1 90 "trip" 1 none (some [2, 3, 9])).1.debts =
        dbTrio.debts ++ (resolveParticipants dbTrio 1 1 (some [2, 3, 9])).map (fun u =>
          ⟨u, dbTrio.next_expense_id,
            90 / ((resolveParticipants dbTrio 1 1 (some [2, 3, 9])).length : ℚ),
            DebtStatus.unpaid⟩)) :=
  ⟨by decide,
   explicit_participants_filtered_before_split dbTrio 1 90 "trip" 1 none [2, 3, 9]
     (by decide) (by decide) (by decide)⟩

/-- An id passing `participantKeep` has a users row. -/
theorem participantKeep_isSome (db : DB) (u : Nat)
    (h : participantKeep db u = true) : (findUser db u).isSome = true := by
  rw [participantKeep.eq_def] at h
  cases hfind : findUser db u with
  | none => rw [hfind] at h; simp at h
  | some usr => rfl

/-- Every id in the list `add_expense` splits over belongs to an existing
user: an explicit list is filtered through `participantKeep`, and the
default list is drawn from the `users` table itself. -/
theorem resolve_mem_findUser (db : DB) (gid : Int) (admin : Nat)
    (pso : Option (List Nat)) :
    ∀ u ∈ resolveParticipants db gid admin pso, (findUser db u).isSome = true := by
  intro u hu
  cases pso with
  | some ps =>
      have hu0 : u ∈ (ps.filter (fun uid => participantKeep db uid)).erase admin := hu
      have hu1 := List.mem_of_mem_erase hu0
      exact participantKeep_isSome db u (List.mem_filter.mp hu1).2
  | none =>
      have hu0 : u ∈ ((get_group_members db gid true).map
          (fun (m : UserRow) => m.user_id)).erase admin := hu
      have hu1 := List.mem_of_mem_erase hu0
      rcases List.mem_map.mp hu1 with ⟨m, hm, rfl⟩
      have hmem : m ∈ db.users := by
        rw [get_group_members] at hm
        simp only [if_true] at hm
        exact List.mem_of_mem_filter (List.mem_of_mem_filter hm)
      rw [findUser, List.find?_isSome]
      exact ⟨m, hmem, by simp⟩

/-- Projecting the debts of `get_expense_with_debts` back onto their debt
rows recovers the inserted rows, provided each row's user exists. -/
theorem filterMap_join_users (db : DB) (eid : Nat) (amt : ℚ) :
    ∀ (l : List Nat), (∀ u ∈ l, (findUser db u).isSome = true) →
      ((l.map (fun u => (⟨u, eid, amt, DebtStatus.unpaid⟩ : DebtRow))).filterMap
        (fun d => if d.expense_id = eid then
          match findUser db d.user_id with
          | some usr => some (d, usr)
          | none => none
        else none)).map Prod.fst
      = l.map (fun u => (⟨u, eid, amt, DebtStatus.unpaid⟩ : DebtRow)) := by
  intro l
  induction l with
  | nil => intro _; rfl
  | cons u rest ih =>
    intro hex
    rcases Option.isSome_iff_exists.mp (hex u (by simp)) with ⟨usr, husr⟩
    have ihr := ih (fun v hv => hex v (by simp [hv]))
    simp only [List.filterMap_map] at ihr
    simp [List.filterMap_cons, husr, ihr]

/-- Reading an expense back after the creating insert: the fresh expense
row is found (all earlier ids differ), earlier debts do not join (their
expense ids differ), and the new debts join against the unchanged users
table. -/
theorem gewd_after_insert (dbN dbO : DB) (eid : Nat) (row : ExpenseRow)
    (newRows : List DebtRow)
    (hu : dbN.users = dbO.users)
    (he : dbN.expenses = dbO.expenses ++ [row])
    (hd : dbN.debts = dbO.debts ++ newRows)
    (hrid : row.id = eid)
    (hfe : ∀ e ∈ dbO.expenses, e.id ≠ eid)
    (hfd : ∀ d ∈ dbO.debts, d.expense_id ≠ eid) :
    get_expense_with_debts dbN eid = some ⟨row, newRows.filterMap (fun d =>
      if d.expense_id = eid then
        match findUser dbO d.user_id with
        | some usr => some (d, usr)
        | none => none
      else none)⟩ := by
  rw [get_expense_with_debts]
  simp only [he, hd, findUser, hu]
  have hfind : (dbO.expenses ++ [row]).find? (fun e => e.id = eid) = some row := by
    rw [List.find?_append, List.find?_eq_none.mpr (fun e hee => by
      simpa using hfe e hee)]
    simp [hrid]
  simp only [hfind]
  rw [List.filterMap_append]
  have hold : dbO.debts.filterMap (fun d =>
      if d.expense_id = eid then
        match findUser dbO d.user_id with
        | some usr => some (d, usr)
        | none => none
      else none) = [] := by
    rw [List.filterMap_eq_nil_iff]
    intro d hd2
    simp [hfd d hd2]
  simp only [findUser] at hold
  rw [hold, List.nil_append]

/-- C6 (amended: the participants list returned is the list `add_expense`
actually stored — the passed list after dropping non-existent users, users
matching the bot heuristic, and the creator; or the computed default set
when omitted): after any successful `add_expense`, `get_expense_with_debts`
on the returned id yields that filtered participants list and exactly the
debt rows created by the call, in order. -/
theorem round_trip_returns_filtered_participants_and_created_debts
    (db : DB) (gid : Int) (amount : ℚ) (desc : String) (admin : Nat)
    (fid : Option String) (pso : Option (List Nat)) (eid : Nat)
    (hfe : ∀ e ∈ db.expenses, e.id ≠ db.next_expense_id)
    (hfd : ∀ d ∈ db.debts, d.expense_id ≠ db.next_expense_id)
    (hsucc : (add_expense db gid amount desc admin fid pso).2 = some eid) :
    ((get_expense_with_debts (add_expense db gid amount desc admin fid pso).1 eid).map
      (fun r => r.expense.participants)) = some (resolveParticipants db gid admin pso) ∧
    ((get_expense_with_debts (add_expense db gid amount desc admin fid pso).1 eid).map
      (fun r => r.debts.map Prod.fst)) = some
        ((resolveParticipants db gid admin pso).map (fun u =>
          ⟨u, db.next_expense_id,
            amount / ((resolveParticipants db gid admin pso).length : ℚ),
            DebtStatus.unpaid⟩)) := by
  cases hins : insertDebtsAux db.next_expense_id
      (amount / ((resolveParticipants db gid admin pso).length : ℚ))
      (resolveParticipants db gid admin pso) db.debts with
  | none =>
      rw [add_expense] at hsucc
      simp only [hins] at hsucc
      exact Option.noConfusion hsucc
  | some nd =>
      have hshape : nd = db.debts ++ (resolveParticipants db gid admin pso).map (fun u =>
          ⟨u, db.next_expense_id,
            amount / ((resolveParticipants db gid admin pso).length : ℚ),
            DebtStatus.unpaid⟩) :=
        insertDebtsAux_shape _ _ _ _ _ hins
      have heid : db.next_expense_id = eid := by
        rw [add_expense] at hsucc
        simp only [hins] at hsucc
        exact Option.some.inj hsucc
      have hdb : (add_expense db gid amount desc admin fid pso).1 =
          { db with
            expenses := db.expenses ++ [⟨db.next_expense_id, gid, amount, desc,
              db.now, admin, fid, resolveParticipants db gid admin pso⟩],
            debts := nd,
            next_expense_id := db.next_expense_id + 1 } := by
        rw [add_expense]
        simp only [hins]
      have hg := gewd_after_insert (add_expense db gid amount desc admin fid pso).1 db
        db.next_expense_id
        ⟨db.next_expense_id, gid, amount, desc, db.now, admin, fid,
          resolveParticipants db gid admin pso⟩
        ((resolveParticipants db gid admin pso).map (fun u =>
          ⟨u, db.next_expense_id,
            amount / ((resolveParticipants db gid admin pso).length : ℚ),
            DebtStatus.unpaid⟩))
        (by rw [hdb]) (by rw [hdb]) (by rw [hdb, hshape]) rfl hfe hfd
      rw [← heid, hg]
      constructor
      · rfl
      · rw [Option.map_some']
        exact congrArg _ (filterMap_join_users db db.next_expense_id _ _
          (resolve_mem_findUser db gid admin pso))

/-- Witness for C6: a successful `add_expense` on the trio fixture with the
already-filtered list `[2, 3]`, read back through `get_expense_with_debts`. -/
theorem round_trip_witness :
    (add_expense dbTrio 1 90 "trip" 1 none (some [2, 3])).2 = some 1 ∧
    (((get_expense_with_debts (add_expense dbTrio 1 90 "trip" 1 none
        (some [2, 3])).1 1).map (fun r => r.expense.participants)) =
      some (resolveParticipants dbTrio 1 1 (some [2, 3])) ∧
     ((get_expense_with_debts (add_expense dbTrio 1 90 "trip" 1 none
        (some [2, 3])).1 1).map (fun r => r.debts.map Prod.fst)) = some
        ((resolveParticipants dbTrio 1 1 (some [2, 3])).map (fun u =>
          ⟨u, dbTrio.next_expense_id,
            90 / ((resolveParticipants dbTrio 1 1 (some [2, 3])).length : ℚ),
            DebtStatus.unpaid⟩))) :=
  ⟨by decide,
   round_trip_returns_filtered_participants_and_created_debts dbTrio 1 90 "trip" 1
     none (some [2, 3]) 1 (by decide) (by decide) (by decide)⟩

/-- C6 counterexample: passing `[1, 2]` where 1 is the creator succeeds,
but the round trip returns participants `[2]`, not the passed list
`[1, 2]`. -/
theorem round_trip_participants_differ_from_passed_list :
    (add_expense dbTrio 1 10 "tea" 1 none (some [1, 2])).2 = some 1 ∧
    ((get_expense_with_debts (add_expense dbTrio 1 10 "tea" 1 none
        (some [1, 2])).1 1).map (fun r => r.expense.participants)) = some [2] ∧
    some [2] ≠ some ([1, 2] : List Nat) := by
  decide

/-!
### Scheduler lemmas (C9)
-/

/-- A `find?` call is unaffected by first filtering with a predicate implied by the
search predicate. -/
theorem find?_filter_of_imp {α : Type} (p q : α → Bool) (l : List α)
    (h : ∀ a, p a = true → q a = true) :
    (l.filter q).find? p = l.find? p := by
  induction l with
  | nil => rfl
  | cons a l ih =>
    cases hq : q a with
    | true =>
        cases hp : p a with
        | true => simp [List.filter_cons, hq, List.find?_cons, hp]
        | false => simp [List.filter_cons, hq, List.find?_cons, hp, ih]
    | false =>
        have hp : p a = false := by
          cases hpa : p a with
          | false => rfl
          | true => rw [h a hpa] at hq; exact Bool.noConfusion hq
        simp [List.filter_cons, hq, List.find?_cons, hp, ih]

/-- With unique task ids, looking a member task up by its id finds it. -/
theorem find_task_by_id (l : List TimerTask) (t : TimerTask)
    (hnd : (l.map (fun x => x.task_id)).Nodup) (ht : t ∈ l) :
    l.find? (fun x => x.task_id = t.task_id) = some t := by
  induction l with
  | nil => cases ht
  | cons a l ih =>
    rcases List.mem_cons.mp ht with rfl | htl
    · simp [List.find?_cons]
    · have hne : a.task_id ≠ t.task_id := by
        intro hEq
        have : t.task_id ∈ l.map (fun x => x.task_id) :=
          List.mem_map.mpr ⟨t, htl, rfl⟩
        rw [← hEq] at this
        exact (List.nodup_cons.mp (by simpa using hnd)).1 this
      have htl2 := ih (List.nodup_cons.mp (by simpa using hnd)).2 htl
      simp [List.find?_cons, hne, htl2]

/-- Cancelling a task changes no task id. -/
theorem cancelTask_ids (s : Sched) (tid : Nat) :
    (cancelTask s tid).tasks.map (fun t => t.task_id) =
      s.tasks.map (fun t => t.task_id) := by
  show (s.tasks.map _).map _ = _
  rw [List.map_map]
  apply List.map_congr_left
  intro t _
  by_cases hc : t.task_id = tid ∧ t.status = TaskStatus.active
  · simp [hc]
  · simp [hc]

/-- An active task after `Task.cancel` was already active before, and is not
the cancelled one. -/
theorem active_mem_cancelTask (s : Sched) (tid : Nat) (t : TimerTask)
    (ht : t ∈ (cancelTask s tid).tasks) (hact : t.status = TaskStatus.active) :
    t ∈ s.tasks ∧ t.task_id ≠ tid := by
  rcases List.mem_map.mp ht with ⟨t0, ht0, heq⟩
  by_cases hc : t0.task_id = tid ∧ t0.status = TaskStatus.active
  · rw [if_pos hc] at heq
    rw [← heq] at hact
    exact absurd hact (by simp)
  · rw [if_neg hc] at heq
    subst heq
    refine ⟨ht0, fun hid => hc ⟨hid, hact⟩⟩

/-- The cancel step when nothing is registered for the key. -/
theorem cancelExisting_none (s : Sched) (k : Int × Nat)
    (hlk : tableLookup s.table k = none) : cancelExisting s k = s := by
  rw [cancelExisting.eq_def]
  simp only [hlk]

/-- The cancel step when the registered task is not done: it is cancelled. -/
theorem cancelExisting_cancels (s : Sched) (k : Int × Nat) (tid : Nat)
    (hlk : tableLookup s.table k = some tid) (hd : taskDone s tid = false) :
    cancelExisting s k = cancelTask s tid := by
  rw [cancelExisting.eq_def]
  simp only [hlk, hd, Bool.not_false, if_true]

/-- The cancel step when the registered task is already done: no-op. -/
theorem cancelExisting_done (s : Sched) (k : Int × Nat) (tid : Nat)
    (hlk : tableLookup s.table k = some tid) (hd : taskDone s tid = true) :
    cancelExisting s k = s := by
  rw [cancelExisting.eq_def]
  simp only [hlk, hd, Bool.not_true, Bool.false_eq_true, if_false]

/-- Cancelling the registered task does not touch the table. -/
theorem cancelExisting_table (s : Sched) (k : Int × Nat) :
    (cancelExisting s k).table = s.table := by
  cases hlk : tableLookup s.table k with
  | none => rw [cancelExisting_none s k hlk]
  | some tid =>
      cases hd : taskDone s tid with
      | false => rw [cancelExisting_cancels s k tid hlk hd]; rfl
      | true => rw [cancelExisting_done s k tid hlk hd]

/-- Cancelling the registered task does not touch the id counter. -/
theorem cancelExisting_next (s : Sched) (k : Int × Nat) :
    (cancelExisting s k).next_task_id = s.next_task_id := by
  cases hlk : tableLookup s.table k with
  | none => rw [cancelExisting_none s k hlk]
  | some tid =>
      cases hd : taskDone s tid with
      | false => rw [cancelExisting_cancels s k tid hlk hd]; rfl
      | true => rw [cancelExisting_done s k tid hlk hd]

/-- Cancelling the registered task changes no task id. -/
theorem cancelExisting_ids (s : Sched) (k : Int × Nat) :
    (cancelExisting s k).tasks.map (fun t => t.task_id) =
      s.tasks.map (fun t => t.task_id) := by
  cases hlk : tableLookup s.table k with
  | none => rw [cancelExisting_none s k hlk]
  | some tid =>
      cases hd : taskDone s tid with
      | false => rw [cancelExisting_cancels s k tid hlk hd]; exact cancelTask_ids s tid
      | true => rw [cancelExisting_done s k tid hlk hd]

/-- An active task after the cancel step was active before it. -/
theorem active_mem_cancelExisting (s : Sched) (k : Int × Nat) (t : TimerTask)
    (ht : t ∈ (cancelExisting s k).tasks) (hact : t.status = TaskStatus.active) :
    t ∈ s.tasks := by
  cases hlk : tableLookup s.table k with
  | none => rw [cancelExisting_none s k hlk] at ht; exact ht
  | some tid =>
      cases hd : taskDone s tid with
      | false =>
          rw [cancelExisting_cancels s k tid hlk hd] at ht
          exact (active_mem_cancelTask s tid t ht hact).1
      | true => rw [cancelExisting_done s k tid hlk hd] at ht; exact ht

/-- Reading `taskDone` at the id of a member task returns the status of that task. -/
theorem taskDone_of_mem (s : Sched) (t : TimerTask)
    (hnd : (s.tasks.map (fun x => x.task_id)).Nodup) (ht : t ∈ s.tasks) :
    taskDone s t.task_id = decide (t.status = TaskStatus.done) := by
  rw [taskDone.eq_def, find_task_by_id s.tasks t hnd ht]

/-- After the cancel step of `schedule_message_deletion`, no active task is
left for the scheduled key: the step cancels exactly the task the table
names, and the invariant says any active task for the key is that one. -/
theorem cancelExisting_no_active (s : Sched) (k : Int × Nat) (hinv : SchedInv s) :
    ∀ t ∈ (cancelExisting s k).tasks, t.key = k → t.status ≠ TaskStatus.active := by
  intro t ht hk hact
  cases hlk : tableLookup s.table k with
  | none =>
      rw [cancelExisting_none s k hlk] at ht
      have hreg := hinv.active_reg t ht hact
      rw [hk, hlk] at hreg
      exact Option.noConfusion hreg
  | some tid =>
      cases hd : taskDone s tid with
      | false =>
          rw [cancelExisting_cancels s k tid hlk hd] at ht
          obtain ⟨hmem, hne⟩ := active_mem_cancelTask s tid t ht hact
          have hreg := hinv.active_reg t hmem hact
          rw [hk, hlk] at hreg
          exact hne (Option.some.inj hreg).symm
      | true =>
          rw [cancelExisting_done s k tid hlk hd] at ht
          have hreg := hinv.active_reg t ht hact
          rw [hk, hlk] at hreg
          have htid : tid = t.task_id := Option.some.inj hreg
          rw [htid, taskDone_of_mem s t hinv.nodup_ids ht, hact] at hd
          exact Bool.noConfusion hd

/-- Registering a key in the table makes its lookup return the new task. -/
theorem tableLookup_tableSet_self (tb : List ((Int × Nat) × Nat)) (k : Int × Nat)
    (v : Nat) : tableLookup (tableSet tb k v) k = some v := by
  simp [tableLookup, tableSet, List.find?_cons]

/-- Registering a key leaves the lookup of every other key unchanged. -/
theorem tableLookup_tableSet_other (tb : List ((Int × Nat) × Nat))
    (k k2 : Int × Nat) (v : Nat) (h : k2 ≠ k) :
    tableLookup (tableSet tb k v) k2 = tableLookup tb k2 := by
  show (List.find? (fun e => e.1 = k2) ((k, v) ::
      List.filter (fun e => e.1 ≠ k) tb)).map (fun e => e.2) =
    (List.find? (fun e => e.1 = k2) tb).map (fun e => e.2)
  rw [List.find?_cons_of_neg _ (by
    simp only [decide_eq_true_eq]
    intro hEq
    first
    | exact h hEq
    | exact h hEq.symm)]
  rw [find?_filter_of_imp (fun e => e.1 = k2) (fun e => e.1 ≠ k) tb
    (fun e he => by
      simp only [decide_eq_true_eq] at he ⊢
      rw [he]
      exact h)]

/-- Scheduling preserves the scheduler invariant. -/
theorem SchedInv_schedule (s : Sched) (k : Int × Nat) (hinv : SchedInv s) :
    SchedInv (schedule_message_deletion s k) := by
  have hids := cancelExisting_ids s k
  have htab := cancelExisting_table s k
  have hnext := cancelExisting_next s k
  constructor
  · show (((cancelExisting s k).tasks ++
        [(⟨(cancelExisting s k).next_task_id, k, TaskStatus.active⟩ : TimerTask)]).map
        (fun t => t.task_id)).Nodup
    rw [List.map_append, hids, hnext]
    rw [List.nodup_append]
    refine ⟨hinv.nodup_ids, List.nodup_singleton _, ?_⟩
    intro x hx
    rcases List.mem_map.mp hx with ⟨t0, ht0, rfl⟩
    have hlt := hinv.fresh t0 ht0
    simp only [List.map_cons, List.map_nil, List.mem_singleton]
    intro hEq
    rw [hEq] at hlt
    exact lt_irrefl _ hlt
  · intro t ht
    rcases List.mem_append.mp ht with hold | hnew
    · have hmm : t.task_id ∈ (cancelExisting s k).tasks.map (fun x => x.task_id) :=
        List.mem_map.mpr ⟨t, hold, rfl⟩
      rw [hids] at hmm
      rcases List.mem_map.mp hmm with ⟨t0, ht0, hEq⟩
      show t.task_id < (cancelExisting s k).next_task_id + 1
      rw [hnext, ← hEq]
      exact Nat.lt_succ_of_lt (hinv.fresh t0 ht0)
    · simp only [List.mem_singleton] at hnew
      subst hnew
      show (cancelExisting s k).next_task_id < (cancelExisting s k).next_task_id + 1
      exact Nat.lt_succ_self _
  · intro t ht hact
    rcases List.mem_append.mp ht with hold | hnew
    · have hk : t.key ≠ k := fun hEq =>
        cancelExisting_no_active s k hinv t hold hEq hact
      show tableLookup (tableSet (cancelExisting s k).table k
        (cancelExisting s k).next_task_id) t.key = some t.task_id
      rw [tableLookup_tableSet_other _ _ _ _ hk, htab]
      exact hinv.active_reg t (active_mem_cancelExisting s k t hold hact) hact
    · simp only [List.mem_singleton] at hnew
      subst hnew
      exact tableLookup_tableSet_self _ _ _

/-- One `schedule_message_deletion` call leaves exactly one active timer for
its key. -/
theorem schedule_once_active (s : Sched) (k : Int × Nat) (hinv : SchedInv s) :
    activeTimers (schedule_message_deletion s k) k = 1 := by
  rw [activeTimers]
  show (((cancelExisting s k).tasks ++
      [(⟨(cancelExisting s k).next_task_id, k, TaskStatus.active⟩ : TimerTask)]).filter
      (fun t => t.key = k ∧ t.status = TaskStatus.active)).length = 1
  rw [List.filter_append]
  have h1 : (cancelExisting s k).tasks.filter
      (fun t => t.key = k ∧ t.status = TaskStatus.active) = [] := by
    rw [List.filter_eq_nil_iff]
    intro t ht hp
    simp only [decide_eq_true_eq] at hp
    exact cancelExisting_no_active s k hinv t ht hp.1 hp.2
  rw [h1, List.nil_append]
  simp

/-- C9: scheduling deletion twice for the same `(chat, message)` key leaves
exactly one active timer for that key, and the task created by the first
call has been cancelled by the second. -/
theorem reschedule_twice_leaves_one_active_timer (s : Sched) (k : Int × Nat)
    (hinv : SchedInv s) :
    activeTimers (schedule_message_deletion (schedule_message_deletion s k) k) k = 1 ∧
    ((schedule_message_deletion (schedule_message_deletion s k) k).tasks.find?
      (fun t => t.task_id = s.next_task_id)).map (fun t => t.status) =
      some TaskStatus.cancelled := by
  constructor
  · exact schedule_once_active (schedule_message_deletion s k) k
      (SchedInv_schedule s k hinv)
  · have hinv1 := SchedInv_schedule s k hinv
    have hnext := cancelExisting_next s k
    have hnew1 : (⟨(cancelExisting s k).next_task_id, k, TaskStatus.active⟩ :
        TimerTask) ∈ (schedule_message_deletion s k).tasks := by
      show (⟨(cancelExisting s k).next_task_id, k, TaskStatus.active⟩ : TimerTask) ∈
        (cancelExisting s k).tasks ++
          [(⟨(cancelExisting s k).next_task_id, k, TaskStatus.active⟩ : TimerTask)]
      exact List.mem_append_right _ (by simp)
    have hfind1 := find_task_by_id (schedule_message_deletion s k).tasks
      ⟨(cancelExisting s k).next_task_id, k, TaskStatus.active⟩
      hinv1.nodup_ids hnew1
    have hlk1 : tableLookup (schedule_message_deletion s k).table k =
        some (cancelExisting s k).next_task_id :=
      tableLookup_tableSet_self _ _ _
    have hdone1 : taskDone (schedule_message_deletion s k)
        (cancelExisting s k).next_task_id = false := by
      rw [taskDone.eq_def, hfind1]
      simp
    have hcE := cancelExisting_cancels (schedule_message_deletion s k) k
      (cancelExisting s k).next_task_id hlk1 hdone1
    show (((cancelExisting (schedule_message_deletion s k) k).tasks ++
        [(⟨(cancelExisting (schedule_message_deletion s k) k).next_task_id, k,
          TaskStatus.active⟩ : TimerTask)]).find?
        (fun t => t.task_id = s.next_task_id)).map (fun t => t.status) =
      some TaskStatus.cancelled
    rw [hcE]
    rw [List.find?_append]
    have hmain : (cancelTask (schedule_message_deletion s k)
        (cancelExisting s k).next_task_id).tasks.find?
        (fun t => t.task_id = s.next_task_id) =
        some ⟨(cancelExisting s k).next_task_id, k, TaskStatus.cancelled⟩ := by
      show (((cancelExisting s k).tasks ++
          [(⟨(cancelExisting s k).next_task_id, k, TaskStatus.active⟩ : TimerTask)]).map
          (fun t => if t.task_id = (cancelExisting s k).next_task_id ∧
            t.status = TaskStatus.active then
            { t with status := TaskStatus.cancelled } else t)).find?
          (fun t => t.task_id = s.next_task_id) =
        some ⟨(cancelExisting s k).next_task_id, k, TaskStatus.cancelled⟩
      rw [List.map_append]
      rw [List.find?_append]
      have hnone : ((cancelExisting s k).tasks.map (fun t =>
          if t.task_id = (cancelExisting s k).next_task_id ∧
            t.status = TaskStatus.active then
            { t with status := TaskStatus.cancelled } else t)).find?
          (fun t => t.task_id = s.next_task_id) = none := by
        rw [List.find?_eq_none]
        intro x hx
        rcases List.mem_map.mp hx with ⟨t0, ht0, heq⟩
        have hid : x.task_id = t0.task_id := by
          rw [← heq]
          by_cases hc : t0.task_id = (cancelExisting s k).next_task_id ∧
              t0.status = TaskStatus.active
          · simp [hc]
          · simp [hc]
        have hlt : t0.task_id < s.next_task_id := by
          have hmm : t0.task_id ∈ (cancelExisting s k).tasks.map (fun x => x.task_id) :=
            List.mem_map.mpr ⟨t0, ht0, rfl⟩
          rw [cancelExisting_ids] at hmm
          rcases List.mem_map.mp hmm with ⟨t1, ht1, hEq⟩
          rw [← hEq]
          exact hinv.fresh t1 ht1
        simp only [decide_eq_true_eq]
        intro hEq
        rw [hid] at hEq
        rw [hEq] at hlt
        exact lt_irrefl _ hlt
      rw [hnone]
      have hone : ([(⟨(cancelExisting s k).next_task_id, k, TaskStatus.active⟩ :
          TimerTask)].map (fun t =>
          if t.task_id = (cancelExisting s k).next_task_id ∧
            t.status = TaskStatus.active then
            { t with status := TaskStatus.cancelled } else t)).find?
          (fun t => t.task_id = s.next_task_id) =
          some ⟨(cancelExisting s k).next_task_id, k, TaskStatus.cancelled⟩ := by
        simp [List.find?_cons, hnext]
      rw [hone]
      rfl
    rw [hmain]
    rfl

/-- Witness for C9 starting from the empty scheduler state. -/
theorem reschedule_twice_witness :
    SchedInv ⟨[], [], 0⟩ ∧
    (activeTimers (schedule_message_deletion
        (schedule_message_deletion ⟨[], [], 0⟩ (7, 9)) (7, 9)) (7, 9) = 1 ∧
     ((schedule_message_deletion (schedule_message_deletion ⟨[], [], 0⟩ (7, 9))
        (7, 9)).tasks.find? (fun t => t.task_id = (⟨[], [], 0⟩ : Sched).next_task_id)).map
        (fun t => t.status) = some TaskStatus.cancelled) :=
  have hinv : SchedInv ⟨[], [], 0⟩ :=
    ⟨List.nodup_nil, fun t ht => absurd ht (List.not_mem_nil t),
     fun t ht => absurd ht (List.not_mem_nil t)⟩
  ⟨hinv, reschedule_twice_leaves_one_active_timer ⟨[], [], 0⟩ (7, 9) hinv⟩

end ExpenseBot
